import Mathlib

/-!
Verification of the Etsy scraper (src/API/index.py): the price normalizer
`parse_price`, the listing extractor with its selector fallback chain, the
fetch loop `scrape_etsy`, and the `/search` route handler, all embedded
shallowly.  Prices are modelled as exact rationals (`Rat`): every value the
program produces is parsed from a decimal numeral, which `Rat` represents
exactly.
-/

namespace EtsyList

/-- Characters kept by the filtering step `re.sub(r"[^0-9.,-]+", " ", s)`:
digits, period, comma, minus.  The thin space ` ` and the no-break
space `\xa0` handled beforehand are not in this class, so the composite
`replace / re.sub / strip / replace(" ", "")` pipeline amounts to filtering
the input down to exactly these characters. -/
def keepChar (c : Char) : Bool := c.isDigit || c == '.' || c == ',' || c == '-'

/-- Separator disambiguation step of `parse_price`: when both `,` and `.`
occur, the commas are removed (thousands separators); when only `,` occurs,
it is turned into the decimal point. -/
def sepFix (l : List Char) : List Char :=
  if l.contains ',' && l.contains '.' then l.filter (fun c => c != ',')
  else if l.contains ',' then l.map (fun c => if c == ',' then '.' else c)
  else l

/-- Leftmost match of `re.search(r"\d+\.\d+|\d+", s)`.  At the first
position holding a digit the first alternative matches when the maximal
digit run is followed by a period and a further digit (greedy on both
runs); otherwise the match is the digit run alone.  Backtracking inside
the first run can never help, since shortening it leaves a digit, not a
period, as the next character. -/
def findNumber : List Char → Option (List Char)
  | [] => none
  | c :: cs =>
    if c.isDigit then
      let d1 := (c :: cs).takeWhile Char.isDigit
      match (c :: cs).dropWhile Char.isDigit with
      | '.' :: r2 =>
        let d2 := r2.takeWhile Char.isDigit
        if d2.isEmpty then some d1 else some (d1 ++ '.' :: d2)
      | _ => some d1
    else findNumber cs

/-- Numeric value of an ASCII digit. -/
def digitVal (c : Char) : Nat := c.toNat - 48

/-- Value of a run of decimal digits. -/
def digitsToNat (l : List Char) : Nat := l.foldl (fun a c => 10 * a + digitVal c) 0

/-- Exact value of a matched numeral `D1` or `D1.D2` — the `float(m.group())`
call; its defensive `except ValueError` can never fire on a match of the
pattern, so no failure case is needed here.  The value of `D1.D2` is the
exact rational `(D1 * 10 ^ k + D2) / 10 ^ k` where `k` is the length of the
fractional digit run. -/
def ratOfMatch (l : List Char) : Rat :=
  let ip := l.takeWhile (fun c => c != '.')
  match l.dropWhile (fun c => c != '.') with
  | [] => mkRat (digitsToNat ip) 1
  | _ :: fp => mkRat (digitsToNat ip * 10 ^ fp.length + digitsToNat fp) (10 ^ fp.length)

/-- Definition `parse_price` from src/API/index.py.  `none` stands for Python `None`;
the `if not text` guard treats both `None` and the empty string as absent. -/
def parse_price : Option String → Option Rat
  | none => none
  | some t =>
    if t = "" then none
    else
      let s := t.toList.filter keepChar
      if s.isEmpty then none
      else
        match findNumber (sepFix s) with
        | none => none
        | some m => some (ratOfMatch m)

/-! ## The listing extractor

A candidate listing node is modelled by the observations the extractor
makes of it: the stripped text of its first `h3` sub-element (when one
exists), its first `href`-carrying anchor, the text of its first
`span.currency-value` sub-element (when one exists), and its full visible
text `get_text(separator=" ", strip=True)`. -/

/-- An anchor sub-element found by `listing.find("a", href=True)`: its
`title` attribute, its `aria-label` attribute and its stripped text. -/
structure Anchor where
  titleAttr : Option String
  ariaLabel : Option String
  text : String
deriving DecidableEq, Repr

/-- A candidate listing node, reduced to the observations the extraction
code performs on it. -/
structure Node where
  h3Text : Option String
  anchor : Option Anchor
  currencyValue : Option String
  fullText : String
deriving DecidableEq, Repr

/-- Python `x or y` on an optional string and a string: `None` and `""`
are falsy, anything else wins. -/
def pyOrStr (a : Option String) (b : String) : String :=
  match a with
  | some s => if s = "" then b else s
  | none => b

/-- The value of `link.get("title") or link.get("aria-label") or
link.get_text(strip=True)` for an anchor. -/
def anchorTitle (a : Anchor) : String :=
  pyOrStr a.titleAttr (pyOrStr a.ariaLabel a.text)

/-- Title extraction for one node: heading text first; else the anchor
chain; else the node's full text cut to its first 200 characters
(`[:200]`).  A present-but-empty intermediate result is falsy in Python
and falls through, exactly as `if not title` does. -/
def extractTitle (n : Node) : String :=
  let t0 : String :=
    match n.h3Text with
    | some s => s
    | none => ""
  let t1 : String :=
    if t0 = "" then
      match n.anchor with
      | some a => anchorTitle a
      | none => ""
    else t0
  if t1 = "" then n.fullText.take 200 else t1

/-- Price extraction for one node: parse the `currency-value` sub-element
text when the sub-element exists; when that is absent or unparseable,
parse the node's full text. -/
def extractPrice (n : Node) : Option Rat :=
  let p0 : Option Rat :=
    match n.currencyValue with
    | some t => parse_price (some t)
    | none => none
  match p0 with
  | some p => some p
  | none => parse_price (some n.fullText)

/-- One extracted product entry. -/
structure Listing where
  title : String
  price : Rat
deriving DecidableEq, Repr

/-- Extraction of a single node: listings whose price cannot be parsed are
dropped (`if price is None: continue`). -/
def extractListing (n : Node) : Option Listing :=
  match extractPrice n with
  | none => none
  | some p => some ⟨extractTitle n, p⟩

/-- The per-page extraction loop `for listing in listings: ...`. -/
def extractListings (ns : List Node) : List Listing :=
  ns.filterMap extractListing

/-! ## The selector fallback chain

A parsed document is modelled by the node sets its three selectors
return: `find_all(attrs={"data-listing-id": True})`,
`find_all("li", class_="wt-list-unstyled")` and
`select("a.listing-link")`. -/

/-- A parsed search page, reduced to what the three selectors see. -/
structure Doc where
  attrListings : List Node
  liUnstyled : List Node
  anchorListings : List Node
deriving DecidableEq, Repr

/-- The fallback chain `A or B or C` over node sets: Python `or` on lists
picks the first non-empty operand. -/
def selectListings (d : Doc) : List Node :=
  if d.attrListings ≠ [] then d.attrListings
  else if d.liUnstyled ≠ [] then d.liUnstyled
  else d.anchorListings

/-! ## The final sort

`results.sort(key=lambda x: x["price"])` is Python's stable ascending
sort keyed on the price.  A stable sort is determined by its
specification, so insertion sort (which is stable) realizes it exactly. -/

/-- The sort key order: compare listings by price. -/
def priceLE (a b : Listing) : Prop := a.price ≤ b.price

instance : DecidableRel priceLE :=
  fun a b => inferInstanceAs (Decidable (a.price ≤ b.price))

instance : IsTotal Listing priceLE := ⟨fun a b => le_total a.price b.price⟩

instance : IsTrans Listing priceLE := ⟨fun _ _ _ h1 h2 => le_trans h1 h2⟩

/-- The call `results.sort(key=lambda x: x["price"])`. -/
def sortListings (l : List Listing) : List Listing :=
  List.insertionSort priceLE l

/-! ## The fetch loop

The network is abstracted as a map from page number to outcome: a raised
`requests.RequestException`, or a response carrying a status code and the
parsed document.  `pause` and `timeout` have no observable effect on the
returned value. -/

/-- Outcome of `requests.get` for one page. -/
inductive FetchOutcome where
  | netError
  | response (status : Nat) (doc : Doc)
deriving DecidableEq, Repr

/-- A page fetch counts as successful exactly when no exception was raised
and the status code is 200. -/
def FetchOutcome.ok : FetchOutcome → Bool
  | .netError => false
  | .response status _ => status == 200

/-- Listings contributed by one page when its fetch succeeds. -/
def pageListings (net : Nat → FetchOutcome) (page : Nat) : List Listing :=
  match net page with
  | .response 200 d => extractListings (selectListings d)
  | _ => []

/-- The body of `for page in range(1, max_pages + 1)` starting at `page`
with `n` iterations left: a network error or a non-200 status breaks out
of the loop, a success appends the page's listings and continues. -/
def fetchFrom (net : Nat → FetchOutcome) (page : Nat) : Nat → List Listing
  | 0 => []
  | n + 1 =>
    match net page with
    | .netError => []
    | .response status d =>
      if status ≠ 200 then []
      else extractListings (selectListings d) ++ fetchFrom net (page + 1) n

/-- Number of `requests.get` calls the loop issues, with `n` iterations
left starting at `page`: a failing fetch is still a fetch, but ends the
loop. -/
def fetchCount (net : Nat → FetchOutcome) (page : Nat) : Nat → Nat
  | 0 => 0
  | n + 1 =>
    match net page with
    | .netError => 1
    | .response status _ => if status ≠ 200 then 1 else 1 + fetchCount net (page + 1) n

/-- Definition `scrape_etsy`: fetch pages `1 .. max_pages` (1-based, inclusive) with
early stop on the first failure, then stable-sort the accumulated
listings ascending by price.  The keyword only shapes the request URL, so
it is absorbed into the network abstraction. -/
def scrape_etsy (net : Nat → FetchOutcome) (max_pages : Nat) : List Listing :=
  sortListings (fetchFrom net 1 max_pages)

/-! ## The /search route -/

/-- The query parameters of one `/search` request: `keyword` as the raw
optional string, `pages` as the already converted integer (a non-numeric
`pages` value makes `int(...)` raise, which the spec marks a runtime
error outside the contract). -/
structure SearchRequest where
  keyword : Option String
  pages : Option Nat
deriving DecidableEq, Repr

/-- A JSON response body: either the error object or the listings array. -/
inductive JsonBody where
  | errorObj (message : String)
  | listings (items : List Listing)
deriving DecidableEq, Repr

/-- The `/search` handler: `if not keyword` treats a missing and an empty
`keyword` alike and answers 400 with the error object; otherwise `pages`
defaults to 1 and the scrape result is returned with status 200. -/
def search (net : Nat → FetchOutcome) (req : SearchRequest) : Nat × JsonBody :=
  match req.keyword with
  | none => (400, JsonBody.errorObj "Missing \x27keyword\x27 parameter")
  | some k =>
    if k = "" then (400, JsonBody.errorObj "Missing \x27keyword\x27 parameter")
    else (200, JsonBody.listings (scrape_etsy net (req.pages.getD 1)))

/-! ## Concrete fixtures for witnesses -/

/-- A node with a parseable currency-value price of 20. -/
def nodeA : Node :=
  { h3Text := some "A", anchor := none, currencyValue := some "20.00", fullText := "A 20.00" }

/-- A node with a parseable currency-value price of 5. -/
def nodeB : Node :=
  { h3Text := some "B", anchor := none, currencyValue := some "5.00", fullText := "B 5.00" }

/-- A node whose price cannot be parsed from anywhere. -/
def nodeNoPrice : Node :=
  { h3Text := some "C", anchor := none, currencyValue := none, fullText := "no digits here" }

/-- A document whose first selector already matches. -/
def docA : Doc :=
  { attrListings := [nodeA, nodeB], liUnstyled := [nodeNoPrice], anchorListings := [nodeB] }

/-- A network on which every fetch raises. -/
def netBad : Nat → FetchOutcome := fun _ => FetchOutcome.netError

/-- A network on which every fetch succeeds with `docA`. -/
def netGood : Nat → FetchOutcome := fun _ => FetchOutcome.response 200 docA

/-! ## Helper lemmas: stability of the sort -/

/-- Inserting `x` into `l` only ever steps over elements of strictly
smaller price, so the equal-price subsequence at any price gains `x` at
its front when `x` has that price and is untouched otherwise. -/
lemma filter_orderedInsert (x : Listing) (p : Rat) :
    ∀ l : List Listing,
      (List.orderedInsert priceLE x l).filter (fun a => decide (a.price = p)) =
        if x.price = p then x :: l.filter (fun a => decide (a.price = p))
        else l.filter (fun a => decide (a.price = p))
  | [] => by
      by_cases hx : x.price = p <;> simp [List.orderedInsert, hx]
  | y :: l => by
      simp only [List.orderedInsert]
      by_cases hxy : priceLE x y
      · by_cases hx : x.price = p <;> simp [hxy, List.filter, hx]
      · have hlt : y.price < x.price := not_le.mp hxy
        rw [if_neg hxy]
        by_cases hy : y.price = p
        · have hx : x.price ≠ p := by
            intro h; rw [h, hy] at hlt; exact lt_irrefl p hlt
          simp [List.filter, hy, hx, filter_orderedInsert x p l]
        · by_cases hx : x.price = p <;>
            simp [List.filter, hy, hx, filter_orderedInsert x p l]

/-- Stability of the final sort: at every price value the sorted output
lists exactly the input's equal-price entries, in their input order. -/
lemma sortListings_filter (p : Rat) :
    ∀ l : List Listing,
      (sortListings l).filter (fun a => decide (a.price = p)) =
        l.filter (fun a => decide (a.price = p))
  | [] => rfl
  | x :: l => by
      have ih := sortListings_filter p l
      simp only [sortListings, List.insertionSort] at ih ⊢
      rw [filter_orderedInsert x p]
      by_cases hx : x.price = p <;> simp [List.filter, hx, ih]

/-- The final sort orders the output ascending by price. -/
lemma sortListings_sorted (l : List Listing) : List.Sorted priceLE (sortListings l) :=
  List.sorted_insertionSort priceLE l

/-- The final sort permutes the accumulated listings. -/
lemma sortListings_perm (l : List Listing) : List.Perm (sortListings l) l :=
  List.perm_insertionSort priceLE l

/-! ## Helper lemmas: the fetch loop -/

/-- A successful fetch contributes its page and the loop continues. -/
lemma fetchFrom_of_ok {net : Nat → FetchOutcome} {start : Nat}
    (h : (net start).ok = true) (n : Nat) :
    fetchFrom net start (n + 1) = pageListings net start ++ fetchFrom net (start + 1) n := by
  cases hns : net start with
  | netError => rw [hns] at h; simp [FetchOutcome.ok] at h
  | response status d =>
    rw [hns] at h
    have hs : status = 200 := by simpa [FetchOutcome.ok] using h
    subst hs
    simp [fetchFrom, pageListings, hns]

/-- A failed fetch ends the loop with nothing collected from here on. -/
lemma fetchFrom_of_bad {net : Nat → FetchOutcome} {start : Nat}
    (h : (net start).ok = false) (n : Nat) :
    fetchFrom net start (n + 1) = [] := by
  cases hns : net start with
  | netError => simp [fetchFrom, hns]
  | response status d =>
    rw [hns] at h
    have hs : status ≠ 200 := by simpa [FetchOutcome.ok] using h
    simp [fetchFrom, hns, hs]

/-- A successful fetch is one request plus the rest of the loop. -/
lemma fetchCount_of_ok {net : Nat → FetchOutcome} {start : Nat}
    (h : (net start).ok = true) (n : Nat) :
    fetchCount net start (n + 1) = 1 + fetchCount net (start + 1) n := by
  cases hns : net start with
  | netError => rw [hns] at h; simp [FetchOutcome.ok] at h
  | response status d =>
    rw [hns] at h
    have hs : status = 200 := by simpa [FetchOutcome.ok] using h
    subst hs
    simp [fetchCount, hns]

/-- A failed fetch is still one request, and the last one. -/
lemma fetchCount_of_bad {net : Nat → FetchOutcome} {start : Nat}
    (h : (net start).ok = false) (n : Nat) :
    fetchCount net start (n + 1) = 1 := by
  cases hns : net start with
  | netError => simp [fetchCount, hns]
  | response status d =>
    rw [hns] at h
    have hs : status ≠ 200 := by simpa [FetchOutcome.ok] using h
    simp [fetchCount, hns, hs]

/-- The loop never issues more requests than it has iterations. -/
lemma fetchCount_le (net : Nat → FetchOutcome) : ∀ (n start : Nat), fetchCount net start n ≤ n
  | 0, _ => Nat.le_refl 0
  | n + 1, start => by
      cases hok : (net start).ok with
      | true =>
        rw [fetchCount_of_ok hok]
        have := fetchCount_le net n (start + 1)
        omega
      | false =>
        rw [fetchCount_of_bad hok]
        omega

/-- When every page in the window succeeds, the loop runs to the end. -/
lemma fetchCount_all_ok (net : Nat → FetchOutcome) :
    ∀ (n start : Nat), (∀ p, start ≤ p → p < start + n → (net p).ok = true) →
      fetchCount net start n = n
  | 0, _, _ => rfl
  | n + 1, start, h => by
      rw [fetchCount_of_ok (h start (Nat.le_refl _) (by omega))]
      rw [fetchCount_all_ok net n (start + 1) (fun p hp1 hp2 => h p (by omega) (by omega))]
      omega

/-- When every page in the window succeeds, the loop collects every page
of the window in order. -/
lemma fetchFrom_all_ok (net : Nat → FetchOutcome) :
    ∀ (n start : Nat), (∀ p, start ≤ p → p < start + n → (net p).ok = true) →
      fetchFrom net start n = (List.range' start n).flatMap (pageListings net)
  | 0, _, _ => rfl
  | n + 1, start, h => by
      rw [fetchFrom_of_ok (h start (Nat.le_refl _) (by omega)), List.range'_succ,
        List.flatMap_cons,
        fetchFrom_all_ok net n (start + 1) (fun p hp1 hp2 => h p (by omega) (by omega))]

/-- When page `k` is the first failing page of the window, the loop keeps
exactly the listings of the pages before `k`. -/
lemma fetchFrom_stop (net : Nat → FetchOutcome) :
    ∀ (n start k : Nat), start ≤ k → k < start + n → (net k).ok = false →
      (∀ p, start ≤ p → p < k → (net p).ok = true) →
      fetchFrom net start n = (List.range' start (k - start)).flatMap (pageListings net)
  | 0, _, _, h1, h2, _, _ => by omega
  | n + 1, start, k, h1, h2, hbad, hok => by
      rcases Nat.eq_or_lt_of_le h1 with rfl | hlt
      · rw [fetchFrom_of_bad hbad]
        simp
      · rw [fetchFrom_of_ok (hok start (Nat.le_refl _) hlt)]
        rw [fetchFrom_stop net n (start + 1) k hlt (by omega) hbad
          (fun p hp1 hp2 => hok p (by omega) hp2)]
        have hks : k - start = (k - (start + 1)) + 1 := by omega
        rw [hks, List.range'_succ, List.flatMap_cons]

/-- When page `k` is the first failing page of the window, the loop issues
exactly the requests for the pages up to and including `k`. -/
lemma fetchCount_stop (net : Nat → FetchOutcome) :
    ∀ (n start k : Nat), start ≤ k → k < start + n → (net k).ok = false →
      (∀ p, start ≤ p → p < k → (net p).ok = true) →
      fetchCount net start n = k - start + 1
  | 0, _, _, h1, h2, _, _ => by omega
  | n + 1, start, k, h1, h2, hbad, hok => by
      rcases Nat.eq_or_lt_of_le h1 with rfl | hlt
      · rw [fetchCount_of_bad hbad]
        omega
      · rw [fetchCount_of_ok (hok start (Nat.le_refl _) hlt)]
        rw [fetchCount_stop net n (start + 1) k hlt (by omega) hbad
          (fun p hp1 hp2 => hok p (by omega) hp2)]
        omega

/-! ## Helper lemmas: the price normalizer -/

/-- The number pattern finds a match exactly when a digit occurs. -/
lemma findNumber_eq_none_iff : ∀ l : List Char, findNumber l = none ↔ ∀ c ∈ l, c.isDigit = false
  | [] => by simp [findNumber]
  | c :: l => by
      by_cases h : c.isDigit = true
      · have hnall : ¬ (∀ x ∈ c :: l, x.isDigit = false) := by
          intro hall
          have := hall c (List.mem_cons_self c l)
          rw [h] at this
          exact Bool.noConfusion this
        have hns : findNumber (c :: l) ≠ none := by
          simp only [findNumber, if_pos h]
          split
          · split <;> simp
          · simp
        exact iff_of_false hns hnall
      · have hc : c.isDigit = false := by simpa using h
        rw [findNumber, if_neg h]
        simp [hc, findNumber_eq_none_iff l]

/-- Digits survive the character filter. -/
lemma digit_mem_filter_keepChar {s : List Char} {c : Char} (hc : c.isDigit = true) :
    c ∈ s.filter keepChar ↔ c ∈ s := by
  simp [List.mem_filter, keepChar, hc]

/-- Digits survive separator disambiguation: removing commas and turning
commas into periods neither deletes a digit nor creates one. -/
lemma digit_mem_sepFix {l : List Char} {c : Char} (hc : c.isDigit = true) :
    c ∈ sepFix l ↔ c ∈ l := by
  have hcomma : c ≠ ',' := by
    intro h
    rw [h] at hc
    exact absurd hc (by decide)
  unfold sepFix
  split
  · simp [List.mem_filter, bne_iff_ne, hcomma]
  · split
    · constructor
      · intro hm
        rcases List.mem_map.mp hm with ⟨a, ha, hfa⟩
        by_cases ha2 : (a == ',') = true
        · rw [if_pos ha2] at hfa
          rw [← hfa] at hc
          exact absurd hc (by decide)
        · rw [if_neg ha2] at hfa
          rwa [← hfa]
      · intro hm
        refine List.mem_map.mpr ⟨c, hm, ?_⟩
        rw [if_neg (by simpa using hcomma)]
    · exact Iff.rfl

/-- Evaluating `parse_price` on a present string misses exactly when the string has
no digit at all. -/
lemma parse_price_some_eq_none_iff (s : String) :
    parse_price (some s) = none ↔ ∀ c ∈ s.toList, c.isDigit = false := by
  by_cases hs : s = ""
  · subst hs
    refine iff_of_true (by decide) ?_
    intro c hc
    simp [String.toList] at hc
  · have hrw : parse_price (some s) =
        (if (s.toList.filter keepChar).isEmpty then none
         else match findNumber (sepFix (s.toList.filter keepChar)) with
           | none => none
           | some m => some (ratOfMatch m)) := by
      simp only [parse_price, if_neg hs]
    rw [hrw]
    by_cases he : (s.toList.filter keepChar).isEmpty = true
    · rw [if_pos he]
      refine iff_of_true rfl ?_
      intro c hcmem
      by_contra hcd
      have hcd : c.isDigit = true := by simpa using hcd
      have h1 : c ∈ s.toList.filter keepChar := (digit_mem_filter_keepChar hcd).mpr hcmem
      rw [List.isEmpty_iff] at he
      rw [he] at h1
      exact absurd h1 (List.not_mem_nil c)
    · rw [if_neg he]
      have hmatch : (match findNumber (sepFix (s.toList.filter keepChar)) with
          | none => (none : Option Rat)
          | some m => some (ratOfMatch m)) = none ↔
          findNumber (sepFix (s.toList.filter keepChar)) = none := by
        cases findNumber (sepFix (s.toList.filter keepChar)) <;> simp
      rw [hmatch, findNumber_eq_none_iff]
      constructor
      · intro hall c hcmem
        by_contra hcd
        have hcd : c.isDigit = true := by simpa using hcd
        have h1 : c ∈ s.toList.filter keepChar := (digit_mem_filter_keepChar hcd).mpr hcmem
        have h2 : c ∈ sepFix (s.toList.filter keepChar) := (digit_mem_sepFix hcd).mpr h1
        have := hall c h2
        rw [hcd] at this
        exact Bool.noConfusion this
      · intro hall c hcmem
        by_contra hcd
        have hcd : c.isDigit = true := by simpa using hcd
        have h1 : c ∈ s.toList.filter keepChar := (digit_mem_sepFix hcd).mp hcmem
        have h2 : c ∈ s.toList := (digit_mem_filter_keepChar hcd).mp h1
        have := hall c h2
        rw [hcd] at this
        exact Bool.noConfusion this

/-- Every matched numeral denotes a non-negative rational: the pattern
has no sign, so the minus character can never reach the parsed value. -/
lemma ratOfMatch_nonneg (l : List Char) : 0 ≤ ratOfMatch l := by
  cases hd : l.dropWhile (fun c => c != '.') with
  | nil =>
    simp only [ratOfMatch, hd]
    exact Rat.mkRat_nonneg (by positivity) _
  | cons a fp =>
    simp only [ratOfMatch, hd]
    exact Rat.mkRat_nonneg (by positivity) _

/-- Whenever `parse_price` produces a value, that value is non-negative. -/
lemma parse_price_nonneg : ∀ (t : Option String) (q : Rat), parse_price t = some q → 0 ≤ q := by
  intro t q h
  match t with
  | none => exact Option.noConfusion h
  | some s =>
    simp only [parse_price] at h
    by_cases hs : s = ""
    · rw [if_pos hs] at h
      exact Option.noConfusion h
    · rw [if_neg hs] at h
      by_cases he : (s.toList.filter keepChar).isEmpty = true
      · rw [if_pos he] at h
        exact Option.noConfusion h
      · rw [if_neg he] at h
        cases hfn : findNumber (sepFix (s.toList.filter keepChar)) with
        | none =>
          rw [hfn] at h
          exact Option.noConfusion h
        | some m =>
          rw [hfn] at h
          have hq : ratOfMatch m = q := Option.some.inj h
          rw [← hq]
          exact ratOfMatch_nonneg m

/-! ## Claims -/

unseal Rat.mul Rat.inv Rat.add in
/-- C1: the price normalizer maps "$12.50" to 12.5, "1,234" to 1.234
(comma converted to the decimal point, not dropped), and "1,234.56" to
1234.56; in general the separator step removes every comma when both
separators occur and turns the commas into periods when only commas
occur. -/
theorem parse_price_separator_disambiguation :
    parse_price (some "$12.50") = some (25 / 2) ∧
    parse_price (some "1,234") = some (617 / 500) ∧
    parse_price (some "1,234.56") = some (30864 / 25) ∧
    (∀ l : List Char, l.contains ',' = true → l.contains '.' = true →
      sepFix l = l.filter (fun c => c != ',')) ∧
    (∀ l : List Char, l.contains ',' = true → l.contains '.' = false →
      sepFix l = l.map (fun c => if c == ',' then '.' else c)) := by
  refine ⟨by decide, by decide, by decide, ?_, ?_⟩
  · intro l h1 h2
    have m1 : ',' ∈ l := by simpa using h1
    have m2 : '.' ∈ l := by simpa using h2
    simp [sepFix, m1, m2]
  · intro l h1 h2
    have m1 : ',' ∈ l := by simpa using h1
    have m2 : '.' ∉ l := by simpa using h2
    simp [sepFix, m1, m2]

/-- Witness for C1 at concrete inputs: comma-only input gets the comma
turned into a period, mixed input gets the comma removed. -/
theorem parse_price_separator_disambiguation_witness :
    sepFix [',', '1'] = ['.', '1'] ∧ sepFix ['1', ',', '.', '5'] = ['1', '.', '5'] :=
  ⟨(parse_price_separator_disambiguation.2.2.2.2 [',', '1'] (by decide) (by decide)).trans
      (by decide),
   (parse_price_separator_disambiguation.2.2.2.1 ['1', ',', '.', '5'] (by decide)
      (by decide)).trans (by decide)⟩

/-- C2: the fetch loop's output is ascending by price, and it is a stable
permutation of the listings in extraction order: at every price value the
equal-price entries appear exactly as they did before the sort. -/
theorem scrape_etsy_sorted_stable (net : Nat → FetchOutcome) (N : Nat) :
    List.Sorted priceLE (scrape_etsy net N) ∧
    List.Perm (scrape_etsy net N) (fetchFrom net 1 N) ∧
    ∀ p : Rat, (scrape_etsy net N).filter (fun a => decide (a.price = p)) =
      (fetchFrom net 1 N).filter (fun a => decide (a.price = p)) :=
  ⟨sortListings_sorted _, sortListings_perm _, fun p => sortListings_filter p _⟩

/-- C4: exactly one selector strategy is used — the first with a
non-empty node set — and later strategies are never merged in. -/
theorem selector_fallback_first_nonempty (d : Doc) :
    (d.attrListings ≠ [] → selectListings d = d.attrListings) ∧
    (d.attrListings = [] → d.liUnstyled ≠ [] → selectListings d = d.liUnstyled) ∧
    (d.attrListings = [] → d.liUnstyled = [] → selectListings d = d.anchorListings) := by
  refine ⟨fun h => ?_, fun h1 h2 => ?_, fun h1 h2 => ?_⟩ <;> simp [selectListings, *]

/-- Witness for C4: on `docA` all three selectors have candidates, yet
only the first strategy's nodes are returned. -/
theorem selector_fallback_first_nonempty_witness :
    selectListings docA = docA.attrListings ∧ docA.liUnstyled ≠ [] ∧ docA.anchorListings ≠ [] :=
  ⟨(selector_fallback_first_nonempty docA).1 (by decide), by decide, by decide⟩

/-- C5: the fetch loop issues at most `N` requests for pages `1..N`,
exactly `N` when every page succeeds, and on the first network error or
non-200 response (page `k`) it has issued exactly `k` requests and
returns the sorted listings collected from pages `1..k-1`. -/
theorem fetch_loop_counts_and_early_stop (net : Nat → FetchOutcome) (N : Nat) :
    fetchCount net 1 N ≤ N ∧
    ((∀ p, 1 ≤ p → p ≤ N → (net p).ok = true) → fetchCount net 1 N = N) ∧
    (∀ k, 1 ≤ k → k ≤ N → (net k).ok = false →
      (∀ p, 1 ≤ p → p < k → (net p).ok = true) →
      fetchCount net 1 N = k ∧
      scrape_etsy net N =
        sortListings ((List.range' 1 (k - 1)).flatMap (pageListings net))) := by
  refine ⟨fetchCount_le net N 1, ?_, ?_⟩
  · intro h
    exact fetchCount_all_ok net N 1 (fun p hp1 hp2 => h p hp1 (by omega))
  · intro k hk1 hkN hbad hok
    constructor
    · have := fetchCount_stop net N 1 k hk1 (by omega) hbad hok
      omega
    · rw [scrape_etsy, fetchFrom_stop net N 1 k hk1 (by omega) hbad hok]

/-- Witness for C5: with a network that always raises and two requested
pages, exactly one fetch is issued and the result is the empty collection
(sorted). -/
theorem fetch_loop_counts_and_early_stop_witness :
    fetchCount netBad 1 2 = 1 ∧
    scrape_etsy netBad 2 =
      sortListings ((List.range' 1 (1 - 1)).flatMap (pageListings netBad)) :=
  (fetch_loop_counts_and_early_stop netBad 2).2.2 1 (Nat.le_refl 1) (by omega) (by decide)
    (fun p hp1 hp2 => absurd (Nat.lt_of_lt_of_le hp2 hp1) (Nat.lt_irrefl p))

/-- C3: nodes whose price cannot be parsed are dropped, so a document
with `N` parseable and `M` unparseable listings yields exactly `N`
results, and every output listing carries the price some node parsed
to. -/
theorem unparseable_price_listings_dropped (ns : List Node) :
    (extractListings ns).length = ns.countP (fun n => (extractPrice n).isSome) ∧
    ∀ l ∈ extractListings ns, ∃ n ∈ ns, extractPrice n = some l.price := by
  constructor
  · induction ns with
    | nil => rfl
    | cons n ns ih =>
      cases hp : extractPrice n with
      | none =>
        have he : extractListing n = none := by simp [extractListing, hp]
        simp only [extractListings, List.filterMap_cons, he] at ih ⊢
        rw [ih, List.countP_cons]
        simp [hp]
      | some p =>
        have he : extractListing n = some ⟨extractTitle n, p⟩ := by simp [extractListing, hp]
        simp only [extractListings, List.filterMap_cons, he] at ih ⊢
        rw [List.length_cons, ih, List.countP_cons]
        simp [hp]
  · intro l hl
    rw [extractListings, List.mem_filterMap] at hl
    rcases hl with ⟨n, hn, he⟩
    refine ⟨n, hn, ?_⟩
    cases hp : extractPrice n with
    | none => simp [extractListing, hp] at he
    | some p =>
      simp only [extractListing, hp] at he
      have hlp : l = ⟨extractTitle n, p⟩ := (Option.some.inj he).symm
      subst hlp
      rfl

/-- Witness for C3: a three-node document with two parseable prices
yields two listings, and the price 20 in the output stems from a node of
the document. -/
theorem unparseable_price_listings_dropped_witness :
    (extractListings [nodeA, nodeNoPrice, nodeB]).length = 2 ∧
    ∃ n ∈ [nodeA, nodeNoPrice, nodeB],
      extractPrice n = some (Listing.mk "A" 20).price := by
  have h := unparseable_price_listings_dropped [nodeA, nodeNoPrice, nodeB]
  exact ⟨h.1.trans (by decide), h.2 ⟨"A", 20⟩ (by decide)⟩

/-- C6: `/search` without a keyword answers 400 with the documented JSON
error body; with a keyword, `pages` defaults to 1 when absent and the
answer is 200 carrying the scraped listings sorted ascending by price. -/
theorem search_route_contract (net : Nat → FetchOutcome) (req : SearchRequest) :
    (req.keyword = none →
      search net req = (400, JsonBody.errorObj "Missing \x27keyword\x27 parameter")) ∧
    (∀ k, req.keyword = some k → k ≠ "" → req.pages = none →
      search net req = (200, JsonBody.listings (scrape_etsy net 1))) ∧
    (∀ k, req.keyword = some k → k ≠ "" →
      search net req = (200, JsonBody.listings (scrape_etsy net (req.pages.getD 1))) ∧
      List.Sorted priceLE (scrape_etsy net (req.pages.getD 1))) := by
  refine ⟨fun h => ?_, fun k hk hne hp => ?_, fun k hk hne => ⟨?_, sortListings_sorted _⟩⟩
  · simp [search, h]
  · simp [search, hk, hne, hp]
  · simp [search, hk, hne]

/-- Witness for C6: a request with no keyword gets the 400 error, one
with a keyword and no pages parameter gets 200 with one page scraped. -/
theorem search_route_contract_witness :
    search netBad { keyword := none, pages := none } =
      (400, JsonBody.errorObj "Missing \x27keyword\x27 parameter") ∧
    search netBad { keyword := some "mug", pages := none } =
      (200, JsonBody.listings (scrape_etsy netBad 1)) :=
  ⟨(search_route_contract netBad { keyword := none, pages := none }).1 rfl,
   (search_route_contract netBad { keyword := some "mug", pages := none }).2.1 "mug" rfl
     (by decide) rfl⟩

/-- C7: the title is the first non-empty value among the heading text,
the anchor's title attribute, its aria-label attribute, its own text,
and finally the node's full text truncated to 200 characters. -/
theorem title_extraction_chain (n : Node) :
    (∀ t, n.h3Text = some t → t ≠ "" → extractTitle n = t) ∧
    ((n.h3Text = none ∨ n.h3Text = some "") →
      (∀ a, n.anchor = some a → anchorTitle a ≠ "" → extractTitle n = anchorTitle a) ∧
      ((n.anchor = none ∨ ∃ a, n.anchor = some a ∧ anchorTitle a = "") →
        extractTitle n = n.fullText.take 200)) ∧
    (∀ a : Anchor,
      (∀ t, a.titleAttr = some t → t ≠ "" → anchorTitle a = t) ∧
      ((a.titleAttr = none ∨ a.titleAttr = some "") →
        (∀ t, a.ariaLabel = some t → t ≠ "" → anchorTitle a = t) ∧
        ((a.ariaLabel = none ∨ a.ariaLabel = some "") → anchorTitle a = a.text))) := by
  refine ⟨?_, ?_, ?_⟩
  · intro t ht hne
    simp [extractTitle, ht, hne]
  · intro h3
    constructor
    · intro a ha hat
      rcases h3 with h3 | h3 <;> simp [extractTitle, h3, ha, hat]
    · intro ha
      rcases ha with ha | ⟨a, ha, hat⟩
      · rcases h3 with h3 | h3 <;> simp [extractTitle, h3, ha]
      · rcases h3 with h3 | h3 <;> simp [extractTitle, h3, ha, hat]
  · intro a
    refine ⟨?_, ?_⟩
    · intro t ht hne
      simp [anchorTitle, pyOrStr, ht, hne]
    · intro h1
      refine ⟨?_, ?_⟩
      · intro t ht hne
        rcases h1 with h1 | h1 <;> simp [anchorTitle, pyOrStr, h1, ht, hne]
      · intro h2
        rcases h1 with h1 | h1 <;> rcases h2 with h2 | h2 <;>
          simp [anchorTitle, pyOrStr, h1, h2]

/-- Witness for C7: a non-empty heading wins; without a heading an
anchor's aria-label wins over its text when the title attribute is
absent. -/
theorem title_extraction_chain_witness :
    extractTitle nodeA = "A" ∧
    anchorTitle { titleAttr := none, ariaLabel := some "carved spoon", text := "shop" } =
      "carved spoon" :=
  ⟨(title_extraction_chain nodeA).1 "A" rfl (by decide),
   ((title_extraction_chain nodeA).2.2
      { titleAttr := none, ariaLabel := some "carved spoon", text := "shop" }).2
      (Or.inl rfl) |>.1 "carved spoon" rfl (by decide)⟩

/-- C8: the price normalizer returns no value exactly when the input is
absent, empty, or free of digits. -/
theorem parse_price_none_iff_no_digits :
    parse_price none = none ∧
    ∀ s : String, (parse_price (some s) = none ↔ ∀ c ∈ s.toList, c.isDigit = false) :=
  ⟨rfl, parse_price_some_eq_none_iff⟩

/-- Witness for C8: digit-free text yields no value. -/
theorem parse_price_none_iff_no_digits_witness : parse_price (some "abc") = none :=
  (parse_price_none_iff_no_digits.2 "abc").mpr (by decide)

/-- C9: a parsed price is never negative — the number pattern matches
only unsigned numerals, so "-5.00" parses to 5, not -5. -/
theorem parse_price_nonnegative :
    (∀ (t : Option String) (q : Rat), parse_price t = some q → 0 ≤ q) ∧
    parse_price (some "-5.00") = some 5 :=
  ⟨parse_price_nonneg, by decide⟩

/-- Witness for C9: the value parsed from "-5.00" is non-negative. -/
theorem parse_price_nonnegative_witness : 0 ≤ (5 : Rat) :=
  parse_price_nonnegative.1 (some "-5.00") 5 parse_price_nonnegative.2

/-- C10: a present-but-empty keyword is treated exactly like a missing
one: same 400 status, same error body. -/
theorem search_empty_keyword_400 (net : Nat → FetchOutcome) (pages : Option Nat) :
    search net { keyword := some "", pages := pages } =
      (400, JsonBody.errorObj "Missing \x27keyword\x27 parameter") ∧
    search net { keyword := some "", pages := pages } =
      search net { keyword := none, pages := pages } := by
  constructor <;> simp [search]

end EtsyList
